import Mathlib

/-!
Shallow embedding of the two-phase commit manager found in
src/backend/access/transam/twophase.c, together with proofs of the
specification claims about it.  Machine integers are modelled as `Nat`
(with explicit `% 2^w` where a width matters), byte buffers as `List Nat`
(each element a byte value), and fallible operations return `Except`
or `Option`: `ereport(ERROR)` aborts the session before any further
mutation, so an `Except.error` result carries no updated state.
-/

namespace TwoPhase

/- Local transaction identifiers (`TransactionId`) and object
identifiers (`Oid`) are `uint32` values; both are modelled as `Nat`
throughout. -/

/-- MAXALIGN pads a length up to the platform maximum-alignment boundary,
which is 8 bytes on the 64-bit platforms this code targets. -/
def MAXALIGN (n : Nat) : Nat := ((n + 7) / 8) * 8

/-- Write-ahead-log location (`XLogRecPtr`): a log-file id and an offset. -/
structure XLogRecPtr where
  xlogid : Nat
  xrecoff : Nat
deriving DecidableEq, Repr, Inhabited

/-- The `XLByteLE(a, b)` comparison macro on WAL locations:
lexicographic less-or-equal on `(xlogid, xrecoff)`. -/
def xlByteLE (a b : XLogRecPtr) : Bool :=
  a.xlogid < b.xlogid || (a.xlogid == b.xlogid && a.xrecoff ≤ b.xrecoff)

/-- Little-endian byte serialization of a `uint32` value. -/
def encodeU32 (n : Nat) : List Nat :=
  [n % 256, n / 256 % 256, n / 65536 % 256, n / 16777216 % 256]

/-- Little-endian byte serialization of a `uint16` value. -/
def encodeU16 (n : Nat) : List Nat := [n % 256, n / 256 % 256]

/-- Little-endian byte serialization of a 64-bit value. -/
def encodeU64 (n : Nat) : List Nat :=
  encodeU32 (n % 4294967296) ++ encodeU32 (n / 4294967296)

/-- Record header `TwoPhaseRecordOnDisk` preceding each resource-manager
record in the 2PC state payload: `uint32 len; TwoPhaseRmgrId rmid; uint16
info`.  With C layout this struct occupies 8 bytes: `len` at offset 0,
`rmid` (one byte) at offset 4, one padding byte, `info` at offset 6. -/
structure TwoPhaseRecordOnDisk where
  len : Nat
  rmid : Nat
  info : Nat
deriving DecidableEq, Repr

/-- Byte image of a `TwoPhaseRecordOnDisk` struct as `save_state_data`
copies it (the single alignment-padding byte is modelled as 0; readers
never inspect it). -/
def encodeRecordOnDisk (r : TwoPhaseRecordOnDisk) : List Nat :=
  encodeU32 r.len ++ [r.rmid % 256, 0] ++ encodeU16 r.info

/-- Reading a `TwoPhaseRecordOnDisk` back from the head of a byte buffer,
as the `(TwoPhaseRecordOnDisk *) bufptr` cast in `ProcessRecords` does. -/
def decodeRecordOnDisk (bs : List Nat) : TwoPhaseRecordOnDisk :=
  match bs with
  | b0 :: b1 :: b2 :: b3 :: r :: _ :: i0 :: i1 :: _ =>
      ⟨b0 + 256 * b1 + 65536 * b2 + 16777216 * b3, r, i0 + 256 * i1⟩
  | _ => ⟨0, 0, 0⟩

/-- The in-memory assembly buffer (the static `struct xllist records`):
we keep the concatenated byte contents of the chained `XLogRecData`
blocks, the running `total_len` (a `uint32` in the source, so kept
reduced modulo 2^32 here), and the `total_len` field of the
`TwoPhaseFileHeader` sitting at the head of the chain (the `uint32`
field `EndPrepare` back-patches, mirrored here both structurally and in
the byte image). -/
structure XLList where
  data : List Nat
  total_len : Nat
  hdrTotalLen : Nat
deriving DecidableEq, Repr, Inhabited

/-- The `save_state_data` append: copies `bytes` and accounts for the
MAXALIGN-padded length with `records.total_len += padlen`.  Both
`total_len` and `padlen` are `uint32`, so the accumulation wraps modulo
2^32 (absorbing the truncation of `padlen` itself, since
`(a + p) % 2^32 = (a + p % 2^32) % 2^32`).  Padding bytes are modelled
as 0; the reader skips them without looking. -/
def save_state_data (st : XLList) (bytes : List Nat) : XLList :=
  let padlen := MAXALIGN bytes.length
  { st with
      data := st.data ++ bytes ++ List.replicate (padlen - bytes.length) 0,
      total_len := (st.total_len + padlen) % 4294967296 }

/-- The `RegisterTwoPhaseRecord` operation: emit a `TwoPhaseRecordOnDisk`
header, then the rmgr payload bytes when non-empty. -/
def RegisterTwoPhaseRecord (st : XLList) (rmid info : Nat) (data : List Nat) :
    XLList :=
  let st1 := save_state_data st (encodeRecordOnDisk ⟨data.length, rmid, info⟩)
  if 0 < data.length then save_state_data st1 data else st1

/-- One dispatched resource-manager record: what a callback registered
during prepare receives back during finish. -/
structure RmgrCall where
  rmid : Nat
  info : Nat
  bytes : List Nat
deriving DecidableEq, Repr

/-- Register a sequence of rmgr records in order. -/
def registerAll (st : XLList) : List RmgrCall → XLList
  | [] => st
  | c :: cs => registerAll (RegisterTwoPhaseRecord st c.rmid c.info c.bytes) cs

/-- Loop body of `ProcessRecords`, walking the record stream: read the
8-byte record header at the cursor; stop at the sentinel rmgr id; else
dispatch `len` payload bytes and skip their MAXALIGN padding.  The C
loop advances at least 8 bytes per iteration, so buffer length is a
sound fuel. -/
def processRecordsGo (endId : Nat) : Nat → List Nat → List RmgrCall
  | 0, _ => []
  | fuel + 1, buf =>
    if 8 ≤ buf.length then
      let r := decodeRecordOnDisk buf
      if r.rmid = endId then []
      else
        ⟨r.rmid, r.info, (buf.drop 8).take r.len⟩ ::
          processRecordsGo endId fuel ((buf.drop 8).drop (MAXALIGN r.len))
    else []

/-- The `ProcessRecords` walk over a record stream, returning the
dispatched callback invocations in order. -/
def ProcessRecords (endId : Nat) (buf : List Nat) : List RmgrCall :=
  processRecordsGo endId buf.length buf

/-- The byte image contributed to the stream by one
`RegisterTwoPhaseRecord` call. -/
def recordBytes (c : RmgrCall) : List Nat :=
  encodeRecordOnDisk ⟨c.bytes.length, c.rmid, c.info⟩ ++ c.bytes ++
    List.replicate (MAXALIGN c.bytes.length - c.bytes.length) 0

/-- Maximum GID buffer size (`GIDSIZE`): a GID is a NUL-terminated string
of at most 199 bytes. -/
def GIDSIZE : Nat := 200

/-- Magic number at the head of a 2PC state payload (`TWOPHASE_MAGIC`). -/
def TWOPHASE_MAGIC : Nat := 0x57F94531

/-- Size of the fixed `TwoPhaseFileHeader` under C layout: five `uint32`
fields (magic, total_len, xid, database), an 8-byte `TimestampTz`, four
more `uint32`-sized fields (owner, nsubxacts, ncommitrels, nabortrels)
and the 200-byte gid buffer: 4*4 + 8 + 4*4 + 200 = 240 bytes. -/
def SIZEOF_TWOPHASE_FILE_HEADER : Nat := 240

/-- Size of `pg_crc32`. -/
def SIZEOF_PG_CRC32 : Nat := 4

/-- Modelled from the spec (`memutils.h` is not among the sources): the
configured maximum allocation `MaxAllocSize` that bounds a state
payload, 0x3fffffff bytes. -/
def MaxAllocSize : Nat := 0x3fffffff

/-- Physical file location of a relation (`RelFileNode`): three `Oid`
fields, 12 bytes under C layout. -/
structure RelFileNode where
  spcNode : Nat
  dbNode : Nat
  relNode : Nat
deriving DecidableEq, Repr

/-- Byte image of a `RelFileNode`. -/
def encodeRelFileNode (r : RelFileNode) : List Nat :=
  encodeU32 r.spcNode ++ encodeU32 r.dbNode ++ encodeU32 r.relNode

/-- Byte image of the `gid[GIDSIZE]` field as `StrNCpy` fills it: at most
`GIDSIZE - 1` characters of the gid, zero-padded to `GIDSIZE` bytes.
GIDs are ASCII byte strings, so a character is one byte. -/
def encodeGid (gid : String) : List Nat :=
  let cs := (gid.toList.take (GIDSIZE - 1)).map Char.toNat
  cs ++ List.replicate (GIDSIZE - cs.length) 0

/-- The fixed-size `TwoPhaseFileHeader` at the head of a state payload. -/
structure TwoPhaseFileHeader where
  magic : Nat
  total_len : Nat
  xid : Nat
  database : Nat
  prepared_at : Nat
  owner : Nat
  nsubxacts : Nat
  ncommitrels : Nat
  nabortrels : Nat
  gid : String
deriving DecidableEq, Repr

/-- Byte image of a `TwoPhaseFileHeader` under C layout (little-endian,
no internal padding: the 8-byte timestamp falls on offset 16). -/
def encodeFileHeader (h : TwoPhaseFileHeader) : List Nat :=
  encodeU32 h.magic ++ encodeU32 h.total_len ++ encodeU32 h.xid ++
    encodeU32 h.database ++ encodeU64 h.prepared_at ++ encodeU32 h.owner ++
    encodeU32 h.nsubxacts ++ encodeU32 h.ncommitrels ++
    encodeU32 h.nabortrels ++ encodeGid h.gid

/-- What `StartPrepare` gathers before assembling the payload: the
gxact's identity fields plus the committed children and the pending
delete-on-commit / delete-on-abort relation lists supplied by
`xactGetCommittedChildren` and `smgrGetPendingDeletes`. -/
structure StartPrepareInput where
  xid : Nat
  database : Nat
  prepared_at : Nat
  owner : Nat
  gid : String
  children : List Nat
  commitrels : List RelFileNode
  abortrels : List RelFileNode
deriving Repr

/-- The `StartPrepare` assembly step: initialize the chain, emit the
header (with `total_len = 0`, to be back-patched by `EndPrepare`), then
the subxact, commit-rel and abort-rel arrays, each only when non-empty. -/
def StartPrepare (inp : StartPrepareInput) : XLList :=
  let hdr : TwoPhaseFileHeader :=
    { magic := TWOPHASE_MAGIC, total_len := 0, xid := inp.xid,
      database := inp.database, prepared_at := inp.prepared_at,
      owner := inp.owner, nsubxacts := inp.children.length,
      ncommitrels := inp.commitrels.length,
      nabortrels := inp.abortrels.length, gid := inp.gid }
  let st0 : XLList := { data := [], total_len := 0, hdrTotalLen := 0 }
  let st1 := save_state_data st0 (encodeFileHeader hdr)
  let st2 :=
    if 0 < inp.children.length then
      save_state_data st1 (inp.children.map encodeU32).flatten
    else st1
  let st3 :=
    if 0 < inp.commitrels.length then
      save_state_data st2 (inp.commitrels.map encodeRelFileNode).flatten
    else st2
  if 0 < inp.abortrels.length then
    save_state_data st3 (inp.abortrels.map encodeRelFileNode).flatten
  else st3

/-- Error kinds surfaced by the registry and the prepare pipeline. -/
inductive TwoPhaseErr where
  | GidTooLong
  | Disabled
  | DuplicateGid
  | CapacityExhausted
  | NotFound
  | Busy
  | PermissionDenied
  | WrongDatabase
  | LimitExceeded
deriving DecidableEq, Repr

/-- Back-patching the `total_len` field of the header at the head of the
byte chain (a `uint32` at offset 4). -/
def backpatchTotalLen (data : List Nat) (tl : Nat) : List Nat :=
  data.take 4 ++ encodeU32 tl ++ data.drop 8

/-- The `EndPrepare` assembly step up to WAL insertion: append the end
sentinel record (rmid `endId`, zero-length data), back-patch the
header's `total_len` to the accumulated chain length plus the CRC size
— a `uint32` addition into a `uint32` field, so reduced modulo 2^32 —
and fail with `LimitExceeded` when that (wrapped) value exceeds
`MaxAllocSize` (the C code raises the error right after writing the
field; the error aborts the prepare, so the buffer is discarded either
way). -/
def EndPrepare (endId : Nat) (st : XLList) : Except TwoPhaseErr XLList :=
  let st1 := RegisterTwoPhaseRecord st endId 0 []
  let totalLen := (st1.total_len + SIZEOF_PG_CRC32) % 4294967296
  if MaxAllocSize < totalLen then .error .LimitExceeded
  else
    .ok { data := backpatchTotalLen st1.data totalLen,
          total_len := st1.total_len, hdrTotalLen := totalLen }

/-- Modelled from the spec (`proc.h` is not among the sources): the
bounded per-process subtransaction cache holds at most
`PGPROC_MAX_CACHED_SUBXIDS` entries; the PostgreSQL value is 64, and
the claims only depend on it being a fixed positive bound. -/
def PGPROC_MAX_CACHED_SUBXIDS : Nat := 64

/-- One `GlobalTransactionData` slot.  The embedded dummy `PGPROC` is
flattened into the fields the two-phase code reads and writes
(`proc.xid`, `proc.databaseId`, `proc.roleId`, `proc.subxids`).  The
`subxidsXids` list is the live prefix of the fixed `xids` array, i.e.
its first `nxids` entries.  `locking_backend = none` stands for
`InvalidBackendId`.  A slot's `dummyBackendId` is stamped uniquely at
shared-memory initialization (`MaxBackends + 1 + i`) and never changes,
so it serves as the slot's identity where the C code compares
pointers. -/
structure GlobalTransactionData where
  xid : Nat
  databaseId : Nat
  roleId : Nat
  subxidsOverflowed : Bool
  subxidsXids : List Nat
  dummyBackendId : Nat
  prepared_at : Nat
  prepare_begin_lsn : XLogRecPtr
  prepare_lsn : XLogRecPtr
  owner : Nat
  locking_backend : Option Nat
  valid : Bool
  gid : String
  prepareAppendOnlyIntentCount : Nat
deriving DecidableEq, Repr, Inhabited

/-- The shared `TwoPhaseStateData`: the free list of unused slots and the
active `prepXacts` array (its length is `numPrepXacts`). -/
structure TwoPhaseStateData where
  freeGXacts : List GlobalTransactionData
  prepXacts : List GlobalTransactionData
deriving DecidableEq, Repr, Inhabited

/-- Field initialization performed by `MarkAsPreparing` on the slot
popped from the free list (`dummyBackendId` is the slot's own, stamped
at startup and not reset). -/
def initGXact (free0 : GlobalTransactionData) (xid : Nat)
    (gid : String) (prepared_at : Nat) (owner databaseid : Nat)
    (xlogrecptr : Option XLogRecPtr) (myBackendId : Nat) :
    GlobalTransactionData :=
  { free0 with
      xid := xid, databaseId := databaseid, roleId := owner,
      subxidsOverflowed := false, subxidsXids := [],
      prepared_at := prepared_at,
      prepare_lsn := ⟨0, 0⟩,
      prepare_begin_lsn := (xlogrecptr.getD ⟨0, 0⟩),
      owner := owner,
      locking_backend := some myBackendId,
      valid := false,
      gid := gid,
      prepareAppendOnlyIntentCount := 0 }

/-- The `MarkAsPreparing` reservation.  In order: reject an over-long
gid, reject when the feature is disabled, reject a duplicate gid (the
scan covers every resident slot, valid or not), reject when the free
list is empty; otherwise pop a free slot, initialize it as not-yet-valid
and locked by this backend, and append it to the active array.  The
successful result also becomes the session's `MyLockedGxact`. -/
def MarkAsPreparing (st : TwoPhaseStateData) (maxPreparedXacts myBackendId : Nat)
    (xid : Nat) (gid : String) (prepared_at : Nat)
    (owner databaseid : Nat) (xlogrecptr : Option XLogRecPtr) :
    Except TwoPhaseErr (TwoPhaseStateData × GlobalTransactionData) :=
  if GIDSIZE ≤ gid.length then .error .GidTooLong
  else if maxPreparedXacts = 0 then .error .Disabled
  else if st.prepXacts.any (fun g => g.gid == gid) then .error .DuplicateGid
  else
    match st.freeGXacts with
    | [] => .error .CapacityExhausted
    | free0 :: rest =>
      let gxact := initGXact free0 xid gid prepared_at owner databaseid
        xlogrecptr myBackendId
      .ok ({ freeGXacts := rest, prepXacts := st.prepXacts ++ [gxact] }, gxact)

/-- The `GXactLoadSubxactData` cache load: with more children than the
cache holds, set the overflow flag and keep only the first
`PGPROC_MAX_CACHED_SUBXIDS`; the copy is skipped entirely for an empty
child list. -/
def GXactLoadSubxactData (gxact : GlobalTransactionData)
    (children : List Nat) : GlobalTransactionData :=
  let overflowed :=
    if PGPROC_MAX_CACHED_SUBXIDS < children.length then true
    else gxact.subxidsOverflowed
  let nsubxacts :=
    if PGPROC_MAX_CACHED_SUBXIDS < children.length then
      PGPROC_MAX_CACHED_SUBXIDS
    else children.length
  if 0 < nsubxacts then
    { gxact with subxidsOverflowed := overflowed,
                 subxidsXids := children.take nsubxacts }
  else
    { gxact with subxidsOverflowed := overflowed }

/-- Outcome of the `LockGXact` scan over the active array. -/
inductive LockScanOutcome where
  | notFound
  | failed (e : TwoPhaseErr)
  | locked (slots : List GlobalTransactionData)
      (gxact : GlobalTransactionData)
deriving DecidableEq, Repr

/-- A slot the scan skipped stays in place in front of whatever the rest
of the scan produces. -/
def lockScanSkip (g : GlobalTransactionData) :
    LockScanOutcome → LockScanOutcome
  | .locked l x => .locked (g :: l) x
  | o => o

/-- The per-slot loop of `LockGXact`: skip not-yet-valid slots, skip gid
mismatches; on the hit, fail `Busy` when another backend holds the lock,
then check ownership and database, and finally lock the slot for
`mybid`. -/
def lockGXactScan (gid : String) (user : Nat) (su : Nat → Bool)
    (mydb : Nat) (roleExec : Bool) (mybid : Nat) :
    List GlobalTransactionData → LockScanOutcome
  | [] => .notFound
  | g :: rest =>
    if g.valid = false then
      lockScanSkip g (lockGXactScan gid user su mydb roleExec mybid rest)
    else if g.gid ≠ gid then
      lockScanSkip g (lockGXactScan gid user su mydb roleExec mybid rest)
    else if g.locking_backend.isSome then .failed .Busy
    else if user ≠ g.owner ∧ su user = false then .failed .PermissionDenied
    else if mydb ≠ g.databaseId ∧ roleExec = false then .failed .WrongDatabase
    else
      .locked ({ g with locking_backend := some mybid } :: rest)
        { g with locking_backend := some mybid }

/-- The `LockGXact` entry point: locate the prepared transaction by gid
and mark it busy for this backend; `raiseErrorIfNotFound` selects
between the `NotFound` error and a silent `none`. -/
def LockGXact (st : TwoPhaseStateData) (gid : String) (user : Nat)
    (su : Nat → Bool) (mydb : Nat) (roleExec : Bool) (mybid : Nat)
    (raiseErrorIfNotFound : Bool) :
    Except TwoPhaseErr (Option (TwoPhaseStateData × GlobalTransactionData)) :=
  match lockGXactScan gid user su mydb roleExec mybid st.prepXacts with
  | .locked l x => .ok (some ({ st with prepXacts := l }, x))
  | .failed e => .error e
  | .notFound =>
      if raiseErrorIfNotFound then .error .NotFound else .ok none

/-- The swap-removal `RemoveGXact` performs on the active array: the last
element replaces the vacated index and the array shrinks by one. -/
def swapRemoveAt (l : List GlobalTransactionData) (i : Nat) :
    List GlobalTransactionData :=
  (l.set i (l.getLastD default)).dropLast

/-- The `RemoveGXact` retirement: find the slot in the active array (the
C code compares pointers; slot identity is its `dummyBackendId`),
swap-remove it and push it onto the free list.  `none` models the
`elog(ERROR)` raised when the slot is not in the array. -/
def RemoveGXact (st : TwoPhaseStateData) (g : GlobalTransactionData) :
    Option TwoPhaseStateData :=
  match st.prepXacts.findIdx? (fun x => x.dummyBackendId == g.dummyBackendId) with
  | some i =>
      some { prepXacts := swapRemoveAt st.prepXacts i,
             freeGXacts := g :: st.freeGXacts }
  | none => none

/-- Resetting `locking_backend` through the session's slot pointer:
update the (unique) slot with this identity, leaving every other slot
untouched. -/
def setUnlockedFirst : List GlobalTransactionData → Nat →
    List GlobalTransactionData
  | [], _ => []
  | x :: xs, bid =>
    if x.dummyBackendId = bid then { x with locking_backend := none } :: xs
    else x :: setUnlockedFirst xs bid

/-- The `AtAbort_Twophase` hook (also run at process exit): with no
locked entry do nothing; a not-yet-valid entry is removed from shared
memory; a valid one is merely unlocked; either way the session's
`MyLockedGxact` pointer ends up cleared.  The result pairs the new
shared state with the new `MyLockedGxact`; `none` models the
`elog(ERROR)` path inside `RemoveGXact`. -/
def AtAbort_Twophase (myLockedGxact : Option GlobalTransactionData)
    (st : TwoPhaseStateData) :
    Option (TwoPhaseStateData × Option GlobalTransactionData) :=
  match myLockedGxact with
  | none => some (st, none)
  | some g =>
    if g.valid = false then
      (RemoveGXact st g).map (fun st2 => (st2, none))
    else
      some ({ st with
                prepXacts := setUnlockedFirst st.prepXacts g.dummyBackendId },
            none)

/-- One entry of the checkpoint list (`prpt_map`): a transaction id and
the WAL location of its PREPARE record. -/
structure PrptMap where
  xid : Nat
  xlogrecptr : XLogRecPtr
deriving DecidableEq, Repr

/-- The collection loop of `getTwoPhasePreparedTransactionData`: walk the
active array in order, skip invalid slots, and append each valid slot's
`(xid, prepare_begin_lsn)`. -/
def getTwoPhasePreparedTransactionData :
    List GlobalTransactionData → List PrptMap
  | [] => []
  | g :: rest =>
    if g.valid = false then getTwoPhasePreparedTransactionData rest
    else ⟨g.xid, g.prepare_begin_lsn⟩ :: getTwoPhasePreparedTransactionData rest

/-- The `getTwoPhaseOldestPreparedTransactionXLogRecPtr` scan: `none`
(NULL) for an empty list, else start from the first entry and replace
the candidate whenever a later entry's location is `XLByteLE` it. -/
def getTwoPhaseOldestPreparedTransactionXLogRecPtr (maps : List PrptMap) :
    Option XLogRecPtr :=
  match maps with
  | [] => none
  | m0 :: rest =>
      some (rest.foldl
        (fun oldest m =>
          if xlByteLE m.xlogrecptr oldest then m.xlogrecptr else oldest)
        m0.xlogrecptr)

/-- What `PrescanPreparedTransactions` reads back from WAL for one
recovery-index entry: the PREPARE record's header xid and its subxact
id array. -/
structure PrescanEntry where
  xid : Nat
  subxids : List Nat
deriving DecidableEq, Repr

/-- The CLOG test guarding the prescan body:
`TransactionIdDidCommit(xid) == false && TransactionIdDidAbort(xid) ==
false`.  The CLOG itself is an external collaborator; it enters the
model as the two oracles. -/
def prescanQualifies (didCommit didAbort : Nat → Bool)
    (e : PrescanEntry) : Bool :=
  didCommit e.xid = false && didAbort e.xid = false

/-- The inner subxid loop of the prescan: push `nextXid` one past every
subxid that follows-or-equals it.  Modelled from the spec for the
`transam.c` helpers (not among the sources): xid comparison and
`TransactionIdAdvance` are the natural order on ids, the epoch
wraparound machinery being out of the spec's scope. -/
def advanceNextXidPast (nextXid : Nat)
    (subxids : List Nat) : Nat :=
  subxids.foldl (fun nx sub => if nx ≤ sub then sub + 1 else nx) nextXid

/-- One iteration of the `PrescanPreparedTransactions` loop over the
running pair (minimum result, `nextXid`): an entry whose xid is neither
committed nor aborted lowers the running minimum and advances `nextXid`
past its subxids; any other entry is skipped whole. -/
def prescanStep (didCommit didAbort : Nat → Bool)
    (acc : Nat × Nat) (e : PrescanEntry) :
    Nat × Nat :=
  if prescanQualifies didCommit didAbort e then
    (if e.xid < acc.1 then e.xid else acc.1,
     advanceNextXidPast acc.2 e.subxids)
  else acc

/-- The `PrescanPreparedTransactions` walk: fold `prescanStep` over the
recovery-index entries, the running minimum seeded with the pre-call
`ShmemVariableCache->nextXid`.  Returns the pair (oldest valid xid,
final `nextXid`). -/
def PrescanPreparedTransactions (didCommit didAbort : Nat → Bool)
    (origNextXid : Nat) (entries : List PrescanEntry) :
    Nat × Nat :=
  entries.foldl (prescanStep didCommit didAbort) (origNextXid, origNextXid)

/-- WAL records the finish pipeline can emit. -/
inductive XactWalRecord where
  | commitPrepared (xid : Nat) (children : List Nat)
      (rels : List RelFileNode)
  | abortPrepared (xid : Nat) (children : List Nat)
      (rels : List RelFileNode)
deriving DecidableEq, Repr

/-- Outcome of the record-the-decision step of the finish pipeline:
either a fatal `elog(PANIC)` with the WAL as it stood when the process
stopped, or completion carrying the WAL (with the decision record
appended) and the xid trees newly marked committed / aborted in CLOG. -/
inductive RecordPreparedOutcome where
  | panicAlreadyCommitted (wal : List XactWalRecord)
  | completed (wal : List XactWalRecord)
      (clogCommitted clogAborted : List Nat)
deriving DecidableEq, Repr

/-- Whether an outcome is the fatal panic. -/
def RecordPreparedOutcome.isPanic : RecordPreparedOutcome → Bool
  | .panicAlreadyCommitted _ => true
  | .completed _ _ _ => false

/-- The `RecordTransactionCommitPrepared` step: emit the COMMIT PREPARED
record and mark the tree committed in CLOG (and the distributed log).
It performs no already-committed check. -/
def RecordTransactionCommitPrepared (xid : Nat)
    (children : List Nat) (rels : List RelFileNode)
    (wal : List XactWalRecord) : RecordPreparedOutcome :=
  .completed (wal ++ [.commitPrepared xid children rels]) (xid :: children) []

/-- The `RecordTransactionAbortPrepared` step: first catch the scenario
where a previous attempt aborted partway through
`RecordTransactionCommitPrepared` — an already-committed xid is a fatal
`elog(PANIC)` raised before the abort record is emitted; otherwise emit
the ABORT PREPARED record and mark the tree aborted in CLOG.  The CLOG
commit status is the oracle `didCommit`. -/
def RecordTransactionAbortPrepared (didCommit : Nat → Bool)
    (xid : Nat) (children : List Nat)
    (rels : List RelFileNode) (wal : List XactWalRecord) :
    RecordPreparedOutcome :=
  if didCommit xid then .panicAlreadyCommitted wal
  else
    .completed (wal ++ [.abortPrepared xid children rels]) [] (xid :: children)

/-- The decision dispatch inside `FinishPreparedTransaction`: COMMIT
PREPARED emits the commit record over the delete-on-commit rels, ABORT
PREPARED the abort record over the delete-on-abort rels. -/
def finishPreparedRecordStep (didCommit : Nat → Bool)
    (isCommit : Bool) (xid : Nat) (children : List Nat)
    (commitrels abortrels : List RelFileNode) (wal : List XactWalRecord) :
    RecordPreparedOutcome :=
  if isCommit then RecordTransactionCommitPrepared xid children commitrels wal
  else RecordTransactionAbortPrepared didCommit xid children abortrels wal

/-- The element-copy loop of `GetPreparedTransactionList` (a `memcpy` of
each slot into the palloc'd snapshot array). -/
def copyGXactList : List GlobalTransactionData → List GlobalTransactionData
  | [] => []
  | g :: rest => g :: copyGXactList rest

/-- The `GetPreparedTransactionList` snapshot: an empty registry yields
the NULL array; otherwise every resident slot is copied, the
not-yet-valid ones included (the function's own WARNING comment says
callers must filter those out). -/
def GetPreparedTransactionList (st : TwoPhaseStateData) :
    List GlobalTransactionData :=
  if st.prepXacts.length = 0 then [] else copyGXactList st.prepXacts

/-- One row of the `pg_prepared_xact` set-returning function. -/
structure PgPreparedXactRow where
  transaction : Nat
  gid : String
  prepared : Nat
  ownerid : Nat
  dbid : Nat
deriving DecidableEq, Repr

/-- The tuple `pg_prepared_xact` forms from one snapshot entry. -/
def gxactRow (g : GlobalTransactionData) : PgPreparedXactRow :=
  ⟨g.xid, g.gid, g.prepared_at, g.owner, g.databaseId⟩

/-- The per-call loop of `pg_prepared_xact`: walk the snapshot, skip
entries with `valid = false`, and emit a row for each remaining one. -/
def pgPreparedXactRows :
    List GlobalTransactionData → List PgPreparedXactRow
  | [] => []
  | g :: rest =>
    if g.valid = false then pgPreparedXactRows rest
    else gxactRow g :: pgPreparedXactRows rest

/-- The complete `pg_prepared_xact` result set over a registry state. -/
def pg_prepared_xact (st : TwoPhaseStateData) : List PgPreparedXactRow :=
  pgPreparedXactRows (GetPreparedTransactionList st)

/-- A concrete all-zero slot value, used as a base for the concrete
registry states in the witness theorems. -/
def gxact0 : GlobalTransactionData := default

/-- The total payload length predicted by the specification: the sum of
the MAXALIGN-padded lengths of every appended segment — header, subxact
array, the two relation arrays, each record entry (its 8-byte on-disk
header and its data), and the sentinel — plus the size of the CRC. -/
def specTotalLen (inp : StartPrepareInput) (calls : List RmgrCall) : Nat :=
  SIZEOF_TWOPHASE_FILE_HEADER + MAXALIGN (4 * inp.children.length)
    + MAXALIGN (12 * inp.commitrels.length)
    + MAXALIGN (12 * inp.abortrels.length)
    + (calls.map (fun c => MAXALIGN 8 + MAXALIGN c.bytes.length)).sum
    + MAXALIGN 8 + SIZEOF_PG_CRC32

/-- Concrete prepare input used by the witness theorems: the spec's
happy-commit scenario (xid 42, gid "gxa", subxids 43 and 44, one
delete-on-commit relation). -/
def inp0 : StartPrepareInput :=
  { xid := 42, database := 7, prepared_at := 1000, owner := 1, gid := "gxa",
    children := [43, 44], commitrels := [⟨1, 2, 3⟩], abortrels := [] }

/-- Concrete rmgr record list used by the witness theorems: one record
for rmgr 5 with payload bytes 0xAA 0xBB. -/
def calls0 : List RmgrCall := [⟨5, 0, [170, 187]⟩]

/-- Concrete prepare input with empty subxid and relation lists, used by
the wraparound counterexample. -/
def inpC : StartPrepareInput :=
  { xid := 1, database := 0, prepared_at := 0, owner := 0, gid := "g",
    children := [], commitrels := [], abortrels := [] }

/-- One rmgr record carrying 2^30 - 8 bytes of payload (already a
multiple of 8, so MAXALIGN adds nothing); with its 8-byte on-disk
header it occupies exactly 2^30 bytes of the stream. -/
def bigRecC : RmgrCall := ⟨1, 0, List.replicate 1073741816 0⟩

/-- Four such records: their stream segments alone sum to 4 * 2^30 =
2^32 bytes, so the `uint32` running `total_len` wraps around. -/
def callsC : List RmgrCall := [bigRecC, bigRecC, bigRecC, bigRecC]

/-! Theorems.  Each claim of the specification gets one theorem below,
preceded by helper lemmas about the embedded operations. -/

theorem copyGXactList_eq (l : List GlobalTransactionData) :
    copyGXactList l = l := by
  induction l with
  | nil => rfl
  | cons g rest ih => simp [copyGXactList, ih]

theorem getPreparedTransactionList_eq (st : TwoPhaseStateData) :
    GetPreparedTransactionList st = st.prepXacts := by
  unfold GetPreparedTransactionList
  split
  · next h => exact (List.length_eq_zero.mp h).symm
  · exact copyGXactList_eq _

theorem pgPreparedXactRows_eq (l : List GlobalTransactionData) :
    pgPreparedXactRows l = (l.filter (fun g => g.valid)).map gxactRow := by
  induction l with
  | nil => rfl
  | cons g rest ih =>
    by_cases hv : g.valid
    · simp [pgPreparedXactRows, hv, ih, List.filter_cons]
    · simp only [Bool.not_eq_true] at hv
      simp [pgPreparedXactRows, hv, ih, List.filter_cons]

/-- Claim C10: the registry snapshot taken for the catalog view copies
every resident slot, including those with `valid = false`, but the view
function then emits one row per slot with `valid = true` only, so a
reservation that has not yet reached `MarkAsPrepared` never appears in
the user-facing prepared-transactions view. -/
theorem c10_view_filters_invalid (st : TwoPhaseStateData) :
    GetPreparedTransactionList st = st.prepXacts ∧
    pg_prepared_xact st = (st.prepXacts.filter (fun g => g.valid)).map gxactRow ∧
    ∀ r ∈ pg_prepared_xact st,
      ∃ g ∈ st.prepXacts, g.valid = true ∧ r = gxactRow g := by
  refine ⟨getPreparedTransactionList_eq st, ?_, ?_⟩
  · unfold pg_prepared_xact
    rw [getPreparedTransactionList_eq, pgPreparedXactRows_eq]
  · intro r hr
    unfold pg_prepared_xact at hr
    rw [getPreparedTransactionList_eq, pgPreparedXactRows_eq] at hr
    obtain ⟨g, hg, hrow⟩ := List.mem_map.mp hr
    obtain ⟨hmem, hvalid⟩ := List.mem_filter.mp hg
    exact ⟨g, hmem, hvalid, hrow.symm⟩

/-- Witness for C10 at a concrete two-slot registry, one slot valid and
one not: only the valid slot's row appears. -/
theorem c10_view_filters_invalid_witness :
    pg_prepared_xact
        ⟨[], [{ gxact0 with gid := "a", valid := false },
              { gxact0 with gid := "b", valid := true }]⟩
      = [gxactRow { gxact0 with gid := "b", valid := true }] := by
  rw [(c10_view_filters_invalid
    ⟨[], [{ gxact0 with gid := "a", valid := false },
          { gxact0 with gid := "b", valid := true }]⟩).2.1]
  rfl

/-- Claim C9: loading subtransaction data into a slot caps the cache at
`PGPROC_MAX_CACHED_SUBXIDS` children, setting the overflow flag and
keeping exactly the first `PGPROC_MAX_CACHED_SUBXIDS` when there are
more; with at most that many, all children are stored and the overflow
flag remains false (an empty child list leaves the slot untouched). -/
theorem c9_subxact_cache_cap (gxact : GlobalTransactionData)
    (children : List Nat)
    (h0 : gxact.subxidsOverflowed = false) :
    (PGPROC_MAX_CACHED_SUBXIDS < children.length →
      (GXactLoadSubxactData gxact children).subxidsOverflowed = true ∧
      (GXactLoadSubxactData gxact children).subxidsXids
        = children.take PGPROC_MAX_CACHED_SUBXIDS) ∧
    (children.length ≤ PGPROC_MAX_CACHED_SUBXIDS → 0 < children.length →
      (GXactLoadSubxactData gxact children).subxidsOverflowed = false ∧
      (GXactLoadSubxactData gxact children).subxidsXids = children) ∧
    (children = [] → GXactLoadSubxactData gxact children = gxact) := by
  refine ⟨?_, ?_, ?_⟩
  · intro h
    simp only [PGPROC_MAX_CACHED_SUBXIDS] at h
    simp [GXactLoadSubxactData, h, PGPROC_MAX_CACHED_SUBXIDS]
  · intro hle hpos
    have hnlt : ¬ PGPROC_MAX_CACHED_SUBXIDS < children.length := by omega
    simp [GXactLoadSubxactData, hnlt, hpos, h0]
  · intro h
    subst h
    cases gxact
    simp_all [GXactLoadSubxactData]

/-- Witness for C9: 65 children overflow the 64-entry cache and only the
first 64 are kept; 2 children are stored in full without overflow. -/
theorem c9_subxact_cache_cap_witness :
    (GXactLoadSubxactData default (List.replicate 65 7)).subxidsOverflowed
        = true ∧
    (GXactLoadSubxactData default (List.replicate 65 7)).subxidsXids
        = List.replicate 64 7 ∧
    (GXactLoadSubxactData default [3, 4]).subxidsOverflowed = false ∧
    (GXactLoadSubxactData default [3, 4]).subxidsXids = [3, 4] := by
  have h1 := (c9_subxact_cache_cap default (List.replicate 65 7) rfl).1
    (by simp [PGPROC_MAX_CACHED_SUBXIDS])
  have h2 := (c9_subxact_cache_cap default [3, 4] rfl).2.1
    (by simp [PGPROC_MAX_CACHED_SUBXIDS]) (by simp)
  refine ⟨h1.1, ?_, h2.1, h2.2⟩
  rw [h1.2]
  decide

/-- Claim C5: reserving a gid that is already resident (on any slot,
valid or not) fails with `DuplicateGid`.  The duplicate check runs
before the free list is touched and before any slot is written, and the
error aborts `MarkAsPreparing`, so the registry is left unchanged: in
this functional embedding the error result carries no new state.  The
hypotheses `gid.length < GIDSIZE` and `maxPreparedXacts ≠ 0` hold in
every reachable state containing a resident slot with this gid. -/
theorem c5_markAsPreparing_duplicate_gid (st : TwoPhaseStateData)
    (maxPreparedXacts myBackendId : Nat) (xid : Nat) (gid : String)
    (prepared_at : Nat) (owner databaseid : Nat)
    (xlogrecptr : Option XLogRecPtr) (g : GlobalTransactionData)
    (hg : g ∈ st.prepXacts) (hgid : g.gid = gid)
    (hlen : gid.length < GIDSIZE) (hmax : maxPreparedXacts ≠ 0) :
    MarkAsPreparing st maxPreparedXacts myBackendId xid gid prepared_at
      owner databaseid xlogrecptr = .error .DuplicateGid := by
  have hany : st.prepXacts.any (fun g => g.gid == gid) = true :=
    List.any_eq_true.mpr ⟨g, hg, by simp [hgid]⟩
  simp only [MarkAsPreparing, if_neg (Nat.not_le.mpr hlen), if_neg hmax,
    if_pos hany]

theorem setUnlockedFirst_forall2 (l : List GlobalTransactionData)
    (bid : Nat) :
    List.Forall₂ (fun a b => b = a ∨ b = { a with locking_backend := none })
      l (setUnlockedFirst l bid) := by
  induction l with
  | nil => exact List.Forall₂.nil
  | cons x xs ih =>
    unfold setUnlockedFirst
    split
    · exact List.Forall₂.cons (Or.inr rfl)
        (List.forall₂_same.mpr (fun g _ => Or.inl rfl))
    · exact List.Forall₂.cons (Or.inl rfl) ih

/-- Claim C4: the abort/exit hook.  With no pending slot it changes
nothing; a pending slot with `valid = false` is swap-removed from the
active array and pushed onto the free list; a pending slot with
`valid = true` has only its `locking_backend` reset to none (every slot
of the array either survives unchanged or loses just its lock field, so
the slot stays resident and the free list is untouched); and in every
non-erroring case the session's `MyLockedGxact` pointer comes out
`none`. -/
theorem c4_atAbort_hook :
    (∀ st, AtAbort_Twophase none st = some (st, none)) ∧
    (∀ st (g : GlobalTransactionData) i, g.valid = false →
      st.prepXacts.findIdx? (fun x => x.dummyBackendId == g.dummyBackendId)
          = some i →
      AtAbort_Twophase (some g) st
        = some (⟨g :: st.freeGXacts, swapRemoveAt st.prepXacts i⟩, none)) ∧
    (∀ st (g : GlobalTransactionData), g.valid = true →
      AtAbort_Twophase (some g) st
          = some ({ st with
              prepXacts := setUnlockedFirst st.prepXacts g.dummyBackendId },
            none) ∧
      List.Forall₂ (fun a b => b = a ∨ b = { a with locking_backend := none })
        st.prepXacts (setUnlockedFirst st.prepXacts g.dummyBackendId)) ∧
    (∀ lk st r, AtAbort_Twophase lk st = some r → r.2 = none) := by
  refine ⟨fun st => rfl, ?_, ?_, ?_⟩
  · intro st g i hvalid hidx
    simp [AtAbort_Twophase, hvalid, RemoveGXact, hidx]
  · intro st g hvalid
    refine ⟨?_, setUnlockedFirst_forall2 st.prepXacts g.dummyBackendId⟩
    simp [AtAbort_Twophase, hvalid]
  · intro lk st r h
    match lk with
    | none =>
      simp only [AtAbort_Twophase] at h
      cases h
      rfl
    | some g =>
      simp only [AtAbort_Twophase] at h
      by_cases hv : g.valid = false
      · rw [if_pos hv] at h
        cases hrm : RemoveGXact st g with
        | none => rw [hrm] at h; cases h
        | some st2 =>
          rw [hrm] at h
          injection h with h2
          rw [← h2]
      · rw [if_neg hv] at h
        cases h
        rfl

/-- Witness for C4 at concrete states: an invalid pending slot is
removed to the free list, a valid one is merely unlocked in place. -/
theorem c4_atAbort_hook_witness :
    AtAbort_Twophase (some { gxact0 with locking_backend := some 3 }) ⟨[], [{ gxact0 with locking_backend := some 3 }]⟩ = some (⟨[{ gxact0 with locking_backend := some 3 }], []⟩, none) ∧
    AtAbort_Twophase (some { gxact0 with valid := true, locking_backend := some 3 }) ⟨[], [{ gxact0 with valid := true, locking_backend := some 3 }]⟩ = some (⟨[], [{ gxact0 with valid := true, locking_backend := none }]⟩, none) := by
  constructor
  · rw [c4_atAbort_hook.2.1 ⟨[], [{ gxact0 with locking_backend := some 3 }]⟩
      { gxact0 with locking_backend := some 3 } 0 rfl (by decide)]
    rfl
  · rw [(c4_atAbort_hook.2.2.1
      ⟨[], [{ gxact0 with valid := true, locking_backend := some 3 }]⟩
      { gxact0 with valid := true, locking_backend := some 3 } rfl).1]
    rfl

theorem lockGXactScan_busy (gid : String) (user : Nat) (su : Nat → Bool)
    (mydb : Nat) (roleExec : Bool) (mybid : Nat)
    (l : List GlobalTransactionData) (s : GlobalTransactionData)
    (hfind : l.find? (fun g => g.valid && g.gid == gid) = some s)
    (hlock : s.locking_backend.isSome = true) :
    lockGXactScan gid user su mydb roleExec mybid l = .failed .Busy := by
  induction l with
  | nil => cases hfind
  | cons g rest ih =>
    by_cases hp : (g.valid && g.gid == gid) = true
    · simp only [List.find?, hp] at hfind
      cases hfind
      obtain ⟨hv, hgid⟩ := Bool.and_eq_true_iff.mp hp
      have hgid' : s.gid = gid := by simpa using hgid
      unfold lockGXactScan
      rw [if_neg (by simp [hv]), if_neg (by simp [hgid']), if_pos hlock]
    · have hpf : (g.valid && g.gid == gid) = false := by simpa using hp
      simp only [List.find?, hpf] at hfind
      have hrest := ih hfind
      unfold lockGXactScan
      by_cases hv : g.valid = false
      · rw [if_pos hv, hrest]
        rfl
      · have hgid : ¬ g.gid = gid := by
          intro hg
          have hvt : g.valid = true := by
            cases hb : g.valid
            · exact absurd hb hv
            · rfl
          exact absurd (by simp [hg, hvt]) hp
        rw [if_neg hv, if_pos hgid, hrest]
        rfl

theorem lockGXactScan_notFound (gid : String) (user : Nat) (su : Nat → Bool)
    (mydb : Nat) (roleExec : Bool) (mybid : Nat)
    (l : List GlobalTransactionData)
    (h : ∀ g ∈ l, g.gid = gid → g.valid = false) :
    lockGXactScan gid user su mydb roleExec mybid l = .notFound := by
  induction l with
  | nil => rfl
  | cons g rest ih =>
    have hrest := ih (fun x hx => h x (List.mem_cons_of_mem g hx))
    unfold lockGXactScan
    by_cases hv : g.valid = false
    · rw [if_pos hv, hrest]
      rfl
    · have hgid : ¬ g.gid = gid := by
        intro hg
        exact hv (h g (List.mem_cons_self g rest) hg)
      rw [if_neg hv, if_pos hgid, hrest]
      rfl

/-- Claim C7: `LockGXact` on a gid whose (valid) slot is locked by
another session fails with `Busy`; the error aborts the attempt before
any write, so in this functional embedding the failed attempt yields no
new state and every slot field is untouched.  Slots with
`valid = false` are skipped by the gid scan, so a registry in which
every slot carrying the gid is invalid can never produce `Busy` — the
scan falls through to the not-found outcome. -/
theorem c7_lockGXact_busy :
    (∀ st gid user (su : Nat → Bool) mydb roleExec mybid raise
       (s : GlobalTransactionData),
      st.prepXacts.find? (fun g => g.valid && g.gid == gid) = some s →
      s.locking_backend.isSome = true →
      LockGXact st gid user su mydb roleExec mybid raise = .error .Busy) ∧
    (∀ st gid user (su : Nat → Bool) mydb roleExec mybid raise,
      (∀ g ∈ st.prepXacts, g.gid = gid → g.valid = false) →
      LockGXact st gid user su mydb roleExec mybid raise
        = if raise then .error .NotFound else .ok none) := by
  constructor
  · intro st gid user su mydb roleExec mybid raise s hfind hlock
    unfold LockGXact
    rw [lockGXactScan_busy gid user su mydb roleExec mybid st.prepXacts s
      hfind hlock]
  · intro st gid user su mydb roleExec mybid raise h
    unfold LockGXact
    rw [lockGXactScan_notFound gid user su mydb roleExec mybid st.prepXacts h]

/-- Witness for C7: a valid slot for gid "gxa" locked by backend 2 makes
a finish attempt by backend 5 fail `Busy`; a registry whose only "gxa"
slot is invalid reports not-found instead. -/
theorem c7_lockGXact_busy_witness :
    LockGXact ⟨[], [{ gxact0 with gid := "gxa", valid := true, locking_backend := some 2 }]⟩ "gxa" 1 (fun _ => false) 7 false 5 true = .error .Busy ∧
    LockGXact ⟨[], [{ gxact0 with gid := "gxa", valid := false }]⟩ "gxa" 1 (fun _ => false) 7 false 5 true = .error .NotFound := by
  constructor
  · exact c7_lockGXact_busy.1 _ "gxa" 1 (fun _ => false) 7 false 5 true
      { gxact0 with gid := "gxa", valid := true, locking_backend := some 2 }
      (by decide) rfl
  · rw [c7_lockGXact_busy.2 _ "gxa" 1 (fun _ => false) 7 false 5 true
      (by decide)]
    rfl

/-- Witness for C5: a second reservation of gid "gxa" against a registry
already holding it (with a spare free slot) is rejected. -/
theorem c5_markAsPreparing_duplicate_gid_witness :
    MarkAsPreparing ⟨[gxact0], [{ gxact0 with gid := "gxa" }]⟩ 5 1 42 "gxa"
      1000 1 7 none = .error .DuplicateGid := by
  exact c5_markAsPreparing_duplicate_gid _ 5 1 42 "gxa" 1000 1 7 none
    { gxact0 with gid := "gxa" } (List.mem_singleton.mpr rfl) rfl
    (by decide) (by decide)

/-- Counterexample to C8 as stated: finish of an already-committed
transaction is not fatal in general.  With a CLOG oracle answering
"committed" for xid 42, commit-prepared (`is_commit = true`) of xid 42
completes non-fatally and just re-emits the COMMIT PREPARED record —
`RecordTransactionCommitPrepared` performs no already-committed check;
only the rollback path does. -/
theorem c8_commit_direction_counterexample :
    ((fun _ : Nat => true) 42 = true) ∧
    RecordPreparedOutcome.isPanic
        (finishPreparedRecordStep (fun _ => true) true 42 [] [] [] [])
      = false ∧
    finishPreparedRecordStep (fun _ => true) true 42 [] [] [] []
      = .completed [.commitPrepared 42 [] []] [42] [] :=
  ⟨rfl, rfl, rfl⟩

/-- Claim C8, amended: when rollback-prepared (`is_commit = false`) runs
against a transaction whose xid is already recorded committed in CLOG,
the outcome is fatal (`elog(PANIC)`, the spec's InvariantViolated): it
panics before emitting any abort record, leaving the WAL — and hence
durable state — exactly as it was.  (Commit-prepared performs no such
check and completes non-fatally.) -/
theorem c8_rollback_already_committed_panics
    (didCommit : Nat → Bool) (xid : Nat)
    (children : List Nat) (commitrels abortrels : List RelFileNode)
    (wal : List XactWalRecord) (h : didCommit xid = true) :
    finishPreparedRecordStep didCommit false xid children commitrels
      abortrels wal = .panicAlreadyCommitted wal := by
  simp [finishPreparedRecordStep, RecordTransactionAbortPrepared, h]

/-- Witness for C8 (amended): rolling back xid 42 with a CLOG oracle
that reports it committed panics with the WAL untouched. -/
theorem c8_rollback_already_committed_panics_witness :
    finishPreparedRecordStep (fun _ => true) false 42 [43] [] [⟨9, 9, 9⟩] []
      = .panicAlreadyCommitted [] :=
  c8_rollback_already_committed_panics (fun _ => true) 42 [43] [] [⟨9, 9, 9⟩]
    [] rfl

theorem xlByteLE_refl (a : XLogRecPtr) : xlByteLE a a = true := by
  simp [xlByteLE]

theorem xlByteLE_trans (a b c : XLogRecPtr) (hab : xlByteLE a b = true)
    (hbc : xlByteLE b c = true) : xlByteLE a c = true := by
  simp only [xlByteLE, Bool.or_eq_true, Bool.and_eq_true, decide_eq_true_eq,
    beq_iff_eq] at hab hbc ⊢
  omega

theorem xlByteLE_total (a b : XLogRecPtr) :
    xlByteLE a b = true ∨ xlByteLE b a = true := by
  simp only [xlByteLE, Bool.or_eq_true, Bool.and_eq_true, decide_eq_true_eq,
    beq_iff_eq]
  omega

theorem foldlOldest_spec (rest : List PrptMap) : ∀ a : XLogRecPtr,
    (rest.foldl
        (fun oldest m =>
          if xlByteLE m.xlogrecptr oldest then m.xlogrecptr else oldest) a = a
      ∨ ∃ m ∈ rest,
          m.xlogrecptr = rest.foldl
            (fun oldest m =>
              if xlByteLE m.xlogrecptr oldest then m.xlogrecptr else oldest)
            a) ∧
    xlByteLE
      (rest.foldl
        (fun oldest m =>
          if xlByteLE m.xlogrecptr oldest then m.xlogrecptr else oldest) a)
      a = true ∧
    ∀ m ∈ rest,
      xlByteLE
        (rest.foldl
          (fun oldest m =>
            if xlByteLE m.xlogrecptr oldest then m.xlogrecptr else oldest) a)
        m.xlogrecptr = true := by
  induction rest with
  | nil =>
    intro a
    exact ⟨Or.inl rfl, xlByteLE_refl a, by simp⟩
  | cons m0 rest ih =>
    intro a
    simp only [List.foldl_cons]
    by_cases h : xlByteLE m0.xlogrecptr a = true
    · rw [if_pos h]
      obtain ⟨hmem, hle, hall⟩ := ih m0.xlogrecptr
      refine ⟨?_, xlByteLE_trans _ _ _ hle h, ?_⟩
      · cases hmem with
        | inl he => exact Or.inr ⟨m0, List.mem_cons_self m0 rest, he.symm⟩
        | inr hex =>
          obtain ⟨m, hm, he⟩ := hex
          exact Or.inr ⟨m, List.mem_cons_of_mem m0 hm, he⟩
      · intro m hm
        cases List.mem_cons.mp hm with
        | inl he => exact he ▸ hle
        | inr hmem2 => exact hall m hmem2
    · rw [if_neg h]
      obtain ⟨hmem, hle, hall⟩ := ih a
      have ham0 : xlByteLE a m0.xlogrecptr = true := by
        cases xlByteLE_total a m0.xlogrecptr with
        | inl hh => exact hh
        | inr hh => exact absurd hh h
      refine ⟨?_, hle, ?_⟩
      · cases hmem with
        | inl he => exact Or.inl he
        | inr hex =>
          obtain ⟨m, hm, he⟩ := hex
          exact Or.inr ⟨m, List.mem_cons_of_mem m0 hm, he⟩
      · intro m hm
        cases List.mem_cons.mp hm with
        | inl he =>
          exact he ▸ xlByteLE_trans _ _ _ hle ham0
        | inr hmem2 => exact hall m hmem2

theorem getTwoPhasePreparedTransactionData_eq
    (slots : List GlobalTransactionData) :
    getTwoPhasePreparedTransactionData slots
      = (slots.filter (fun g => g.valid)).map
          (fun g => ⟨g.xid, g.prepare_begin_lsn⟩) := by
  induction slots with
  | nil => rfl
  | cons g rest ih =>
    by_cases hv : g.valid
    · simp [getTwoPhasePreparedTransactionData, hv, ih, List.filter_cons]
    · simp only [Bool.not_eq_true] at hv
      simp [getTwoPhasePreparedTransactionData, hv, ih, List.filter_cons]

/-- Claim C2: the checkpoint list built from the registry contains
exactly the `(xid, prepare_begin_lsn)` pairs of the valid slots (invalid
ones are skipped), and the oldest-prepare-LSN computed from that list is
`none` (NULL) exactly when the list is empty and otherwise a minimum of
the list under `XLByteLE`. -/
theorem c2_checkpoint_oldest_lsn (slots : List GlobalTransactionData) :
    getTwoPhasePreparedTransactionData slots
      = (slots.filter (fun g => g.valid)).map
          (fun g => ⟨g.xid, g.prepare_begin_lsn⟩) ∧
    (getTwoPhaseOldestPreparedTransactionXLogRecPtr
        (getTwoPhasePreparedTransactionData slots) = none ↔
      slots.filter (fun g => g.valid) = []) ∧
    ∀ o, getTwoPhaseOldestPreparedTransactionXLogRecPtr
          (getTwoPhasePreparedTransactionData slots) = some o →
      (∃ m ∈ getTwoPhasePreparedTransactionData slots, m.xlogrecptr = o) ∧
      ∀ m ∈ getTwoPhasePreparedTransactionData slots,
        xlByteLE o m.xlogrecptr = true := by
  refine ⟨getTwoPhasePreparedTransactionData_eq slots, ?_, ?_⟩
  · rw [getTwoPhasePreparedTransactionData_eq slots]
    cases hf : slots.filter (fun g => g.valid) with
    | nil => simp [getTwoPhaseOldestPreparedTransactionXLogRecPtr]
    | cons g rest =>
      simp [getTwoPhaseOldestPreparedTransactionXLogRecPtr]
  · intro o ho
    cases hmaps : getTwoPhasePreparedTransactionData slots with
    | nil =>
      rw [hmaps] at ho
      cases ho
    | cons m0 rest =>
      rw [hmaps] at ho
      simp only [getTwoPhaseOldestPreparedTransactionXLogRecPtr,
        Option.some.injEq] at ho
      obtain ⟨hmem, hle, hall⟩ := foldlOldest_spec rest m0.xlogrecptr
      rw [ho] at hmem hle hall
      constructor
      · cases hmem with
        | inl he => exact ⟨m0, List.mem_cons_self m0 rest, he.symm⟩
        | inr hex =>
          obtain ⟨m, hm, he⟩ := hex
          exact ⟨m, List.mem_cons_of_mem m0 hm, he⟩
      · intro m hm
        cases List.mem_cons.mp hm with
        | inl he => exact he ▸ hle
        | inr hmem2 => exact hall m hmem2

/-- Witness for C2, the spec's checkpoint-horizon scenario: three valid
slots prepared at LSNs 100, 200, 300 (and one invalid reservation) give
a three-entry list whose oldest LSN is 100. -/
theorem c2_checkpoint_oldest_lsn_witness :
    (∃ m ∈ getTwoPhasePreparedTransactionData
        [{ gxact0 with xid := 1, valid := true, prepare_begin_lsn := ⟨0, 200⟩ },
         { gxact0 with xid := 2, valid := true, prepare_begin_lsn := ⟨0, 100⟩ },
         { gxact0 with xid := 3, valid := false, prepare_begin_lsn := ⟨0, 50⟩ },
         { gxact0 with xid := 4, valid := true, prepare_begin_lsn := ⟨0, 300⟩ }],
        m.xlogrecptr = ⟨0, 100⟩) ∧
    getTwoPhaseOldestPreparedTransactionXLogRecPtr
        (getTwoPhasePreparedTransactionData
          [{ gxact0 with xid := 1, valid := true, prepare_begin_lsn := ⟨0, 200⟩ },
           { gxact0 with xid := 2, valid := true, prepare_begin_lsn := ⟨0, 100⟩ },
           { gxact0 with xid := 3, valid := false, prepare_begin_lsn := ⟨0, 50⟩ },
           { gxact0 with xid := 4, valid := true, prepare_begin_lsn := ⟨0, 300⟩ }])
      = some ⟨0, 100⟩ := by
  have h := (c2_checkpoint_oldest_lsn
    [{ gxact0 with xid := 1, valid := true, prepare_begin_lsn := ⟨0, 200⟩ },
     { gxact0 with xid := 2, valid := true, prepare_begin_lsn := ⟨0, 100⟩ },
     { gxact0 with xid := 3, valid := false, prepare_begin_lsn := ⟨0, 50⟩ },
     { gxact0 with xid := 4, valid := true, prepare_begin_lsn := ⟨0, 300⟩ }]).2.2
    ⟨0, 100⟩ (by decide)
  exact ⟨h.1, by decide⟩

theorem advanceNextXidPast_cons (n s : Nat)
    (rest : List Nat) :
    advanceNextXidPast n (s :: rest)
      = advanceNextXidPast (if n ≤ s then s + 1 else n) rest := rfl

theorem advanceNextXidPast_le (subxids : List Nat) :
    ∀ n, n ≤ advanceNextXidPast n subxids := by
  induction subxids with
  | nil => intro n; exact Nat.le_refl n
  | cons s rest ih =>
    intro n
    rw [advanceNextXidPast_cons]
    have h1 : n ≤ (if n ≤ s then s + 1 else n) := by split <;> omega
    exact Nat.le_trans h1 (ih _)

theorem advanceNextXidPast_gt (subxids : List Nat) :
    ∀ n s, s ∈ subxids → s < advanceNextXidPast n subxids := by
  induction subxids with
  | nil => intro n s hs; cases hs
  | cons s0 rest ih =>
    intro n s hs
    rw [advanceNextXidPast_cons]
    cases List.mem_cons.mp hs with
    | inl he =>
      subst he
      have h1 : s < (if n ≤ s then s + 1 else n) := by split <;> omega
      exact Nat.lt_of_lt_of_le h1 (advanceNextXidPast_le rest _)
    | inr hmem => exact ih _ s hmem

theorem prescanFold_spec (didCommit didAbort : Nat → Bool)
    (entries : List PrescanEntry) : ∀ r n,
    (entries.foldl (prescanStep didCommit didAbort) (r, n)).1 ≤ r ∧
    ((entries.foldl (prescanStep didCommit didAbort) (r, n)).1 = r ∨
      ∃ e ∈ entries, prescanQualifies didCommit didAbort e = true ∧
        (entries.foldl (prescanStep didCommit didAbort) (r, n)).1 = e.xid) ∧
    (∀ e ∈ entries, prescanQualifies didCommit didAbort e = true →
      (entries.foldl (prescanStep didCommit didAbort) (r, n)).1 ≤ e.xid) ∧
    n ≤ (entries.foldl (prescanStep didCommit didAbort) (r, n)).2 ∧
    (∀ e ∈ entries, prescanQualifies didCommit didAbort e = true →
      ∀ s ∈ e.subxids,
        s < (entries.foldl (prescanStep didCommit didAbort) (r, n)).2) := by
  induction entries with
  | nil =>
    intro r n
    exact ⟨Nat.le_refl r, Or.inl rfl, by simp, Nat.le_refl n, by simp⟩
  | cons e0 rest ih =>
    intro r n
    rw [List.foldl_cons]
    by_cases hq : prescanQualifies didCommit didAbort e0 = true
    · have hstep : prescanStep didCommit didAbort (r, n) e0
          = (if e0.xid < r then e0.xid else r,
             advanceNextXidPast n e0.subxids) := by
        simp [prescanStep, hq]
      rw [hstep]
      have haprop : (if e0.xid < r then e0.xid else r) ≤ r ∧
          (if e0.xid < r then e0.xid else r) ≤ e0.xid ∧
          ((if e0.xid < r then e0.xid else r) = r ∨
            (if e0.xid < r then e0.xid else r) = e0.xid) := by
        refine ⟨by split <;> omega, by split <;> omega, ?_⟩
        split
        · exact Or.inr rfl
        · exact Or.inl rfl
      obtain ⟨h1, h2, h3, h4, h5⟩ :=
        ih (if e0.xid < r then e0.xid else r) (advanceNextXidPast n e0.subxids)
      refine ⟨Nat.le_trans h1 haprop.1, ?_, ?_, ?_, ?_⟩
      · cases h2 with
        | inl he =>
          cases haprop.2.2 with
          | inl har => exact Or.inl (he.trans har)
          | inr hax =>
            exact Or.inr ⟨e0, List.mem_cons_self e0 rest, hq, he.trans hax⟩
        | inr hex =>
          obtain ⟨e, he, heq, hres⟩ := hex
          exact Or.inr ⟨e, List.mem_cons_of_mem e0 he, heq, hres⟩
      · intro e he heq
        cases List.mem_cons.mp he with
        | inl h0 =>
          subst h0
          exact Nat.le_trans h1 haprop.2.1
        | inr hmem => exact h3 e hmem heq
      · exact Nat.le_trans (advanceNextXidPast_le e0.subxids n) h4
      · intro e he heq s hs
        cases List.mem_cons.mp he with
        | inl h0 =>
          subst h0
          exact Nat.lt_of_lt_of_le (advanceNextXidPast_gt e.subxids n s hs) h4
        | inr hmem => exact h5 e hmem heq s hs
    · have hstep : prescanStep didCommit didAbort (r, n) e0 = (r, n) := by
        simp [prescanStep, hq]
      rw [hstep]
      obtain ⟨h1, h2, h3, h4, h5⟩ := ih r n
      refine ⟨h1, ?_, ?_, h4, ?_⟩
      · cases h2 with
        | inl he => exact Or.inl he
        | inr hex =>
          obtain ⟨e, he, heq, hres⟩ := hex
          exact Or.inr ⟨e, List.mem_cons_of_mem e0 he, heq, hres⟩
      · intro e he heq
        cases List.mem_cons.mp he with
        | inl h0 => exact absurd (h0 ▸ heq) (by simp [hq])
        | inr hmem => exact h3 e hmem heq
      · intro e he heq s hs
        cases List.mem_cons.mp he with
        | inl h0 => exact absurd (h0 ▸ heq) (by simp [hq])
        | inr hmem => exact h5 e hmem heq s hs

/-- Claim C3: `PrescanPreparedTransactions` returns the minimum XID over
the recovery-index entries whose XID is neither committed nor aborted
in CLOG (returning the pre-call next-XID when no such entry exists),
and leaves the global next-XID strictly past every subtransaction XID
of every such entry (and never below its pre-call value).  The
hypothesis that every such XID precedes the pre-call next-XID is the
documented precondition of the function: at its call site
`ShmemVariableCache->nextXid` already exceeds every XID with evidence
in WAL. -/
theorem c3_prescan_oldest_xid (didCommit didAbort : Nat → Bool)
    (origNextXid : Nat) (entries : List PrescanEntry)
    (hbound : ∀ e ∈ entries, prescanQualifies didCommit didAbort e = true →
      e.xid < origNextXid) :
    ((∀ e ∈ entries, prescanQualifies didCommit didAbort e = false) →
      (PrescanPreparedTransactions didCommit didAbort origNextXid entries).1
        = origNextXid) ∧
    (∀ e ∈ entries, prescanQualifies didCommit didAbort e = true →
      (PrescanPreparedTransactions didCommit didAbort origNextXid entries).1
        ≤ e.xid) ∧
    ((∃ e ∈ entries, prescanQualifies didCommit didAbort e = true) →
      ∃ e ∈ entries, prescanQualifies didCommit didAbort e = true ∧
        (PrescanPreparedTransactions didCommit didAbort origNextXid entries).1
          = e.xid) ∧
    origNextXid ≤
      (PrescanPreparedTransactions didCommit didAbort origNextXid entries).2 ∧
    (∀ e ∈ entries, prescanQualifies didCommit didAbort e = true →
      ∀ s ∈ e.subxids,
        s < (PrescanPreparedTransactions didCommit didAbort origNextXid
          entries).2) := by
  obtain ⟨h1, h2, h3, h4, h5⟩ :=
    prescanFold_spec didCommit didAbort entries origNextXid origNextXid
  refine ⟨?_, h3, ?_, h4, h5⟩
  · intro hnone
    unfold PrescanPreparedTransactions
    cases h2 with
    | inl he => exact he
    | inr hex =>
      obtain ⟨e, he, heq, _⟩ := hex
      exact absurd heq (by simp [hnone e he])
  · intro hex0
    obtain ⟨e0, he0, hq0⟩ := hex0
    cases h2 with
    | inl he =>
      have hlt := Nat.lt_of_le_of_lt (h3 e0 he0 hq0) (hbound e0 he0 hq0)
      exact absurd he (Nat.ne_of_lt hlt)
    | inr hex => exact hex

/-- Witness for C3, the spec's crash-replay scenario plus a committed
entry: with entries for xid 100 (subxids 101, 102) and xid 90 (already
committed in CLOG) and pre-call next-XID 103, the prescan returns 100
and the next-XID ends up past subxid 102. -/
theorem c3_prescan_oldest_xid_witness :
    (∃ e ∈ [(⟨100, [101, 102]⟩ : PrescanEntry), ⟨90, []⟩],
      prescanQualifies (fun x => x == 90) (fun _ => false) e = true ∧
        (PrescanPreparedTransactions (fun x => x == 90) (fun _ => false) 103
          [⟨100, [101, 102]⟩, ⟨90, []⟩]).1 = e.xid) ∧
    (102 : Nat) <
      (PrescanPreparedTransactions (fun x => x == 90) (fun _ => false) 103
        [⟨100, [101, 102]⟩, ⟨90, []⟩]).2 := by
  have h := c3_prescan_oldest_xid (fun x => x == 90) (fun _ => false) 103
    [⟨100, [101, 102]⟩, ⟨90, []⟩] (by decide)
  refine ⟨h.2.2.1 ⟨⟨100, [101, 102]⟩, by decide, by decide⟩, ?_⟩
  exact h.2.2.2.2 ⟨100, [101, 102]⟩ (by decide) (by decide) 102 (by decide)

theorem MAXALIGN_ge (n : Nat) : n ≤ MAXALIGN n := by
  unfold MAXALIGN
  omega

theorem MAXALIGN_eight : MAXALIGN 8 = 8 := rfl

theorem MAXALIGN_zero : MAXALIGN 0 = 0 := rfl

theorem length_encodeRecordOnDisk (r : TwoPhaseRecordOnDisk) :
    (encodeRecordOnDisk r).length = 8 := rfl

theorem length_recordBytes (c : RmgrCall) :
    (recordBytes c).length = 8 + MAXALIGN c.bytes.length := by
  have h := MAXALIGN_ge c.bytes.length
  simp only [recordBytes, List.length_append, length_encodeRecordOnDisk,
    List.length_replicate]
  omega

theorem registerTwoPhaseRecord_spec (st : XLList) (rmid info : Nat)
    (d : List Nat) :
    (RegisterTwoPhaseRecord st rmid info d).data
        = st.data ++ recordBytes ⟨rmid, info, d⟩ ∧
    (RegisterTwoPhaseRecord st rmid info d).total_len
        = (st.total_len + (8 + MAXALIGN d.length)) % 4294967296 ∧
    (RegisterTwoPhaseRecord st rmid info d).hdrTotalLen = st.hdrTotalLen := by
  by_cases h : 0 < d.length
  · refine ⟨?_, ?_, ?_⟩
    · simp only [RegisterTwoPhaseRecord, save_state_data,
        length_encodeRecordOnDisk, MAXALIGN_eight, if_pos h, Nat.sub_self,
        List.replicate_zero, List.append_nil, recordBytes]
      simp [List.append_assoc]
    · simp only [RegisterTwoPhaseRecord, save_state_data,
        length_encodeRecordOnDisk, MAXALIGN_eight, if_pos h]
      omega
    · simp [RegisterTwoPhaseRecord, save_state_data, h]
  · have hd : d = [] := List.length_eq_zero.mp (by omega)
    subst hd
    refine ⟨?_, ?_, ?_⟩
    · simp [RegisterTwoPhaseRecord, save_state_data, recordBytes,
        MAXALIGN_eight, MAXALIGN_zero, length_encodeRecordOnDisk]
    · have h00 : ¬ (0 : Nat) < 0 := by omega
      simp only [RegisterTwoPhaseRecord, save_state_data,
        length_encodeRecordOnDisk, MAXALIGN_eight, List.length_nil,
        MAXALIGN_zero]
      rw [if_neg h00]
    · simp [RegisterTwoPhaseRecord, save_state_data]

theorem registerAll_spec (cs : List RmgrCall) : ∀ st : XLList,
    (registerAll st cs).data = st.data ++ (cs.map recordBytes).flatten ∧
    (st.total_len < 4294967296 →
      (registerAll st cs).total_len
        = (st.total_len
            + (cs.map (fun c => 8 + MAXALIGN c.bytes.length)).sum)
          % 4294967296) ∧
    (registerAll st cs).hdrTotalLen = st.hdrTotalLen := by
  induction cs with
  | nil =>
    intro st
    refine ⟨by simp [registerAll], ?_, rfl⟩
    intro hlt
    simp only [registerAll, List.map_nil, List.sum_nil, Nat.add_zero]
    exact (Nat.mod_eq_of_lt hlt).symm
  | cons c rest ih =>
    intro st
    obtain ⟨hd, ht, hh⟩ := ih (RegisterTwoPhaseRecord st c.rmid c.info c.bytes)
    obtain ⟨hd1, ht1, hh1⟩ := registerTwoPhaseRecord_spec st c.rmid c.info
      c.bytes
    refine ⟨?_, ?_, ?_⟩
    · rw [show registerAll st (c :: rest)
          = registerAll (RegisterTwoPhaseRecord st c.rmid c.info c.bytes) rest
          from rfl, hd, hd1]
      simp [List.append_assoc]
    · intro _
      have hlt1 : (RegisterTwoPhaseRecord st c.rmid c.info c.bytes).total_len
          < 4294967296 := by
        rw [ht1]
        exact Nat.mod_lt _ (by omega)
      rw [show registerAll st (c :: rest)
          = registerAll (RegisterTwoPhaseRecord st c.rmid c.info c.bytes) rest
          from rfl, ht hlt1, ht1]
      simp only [List.map_cons, List.sum_cons]
      omega
    · rw [show registerAll st (c :: rest)
          = registerAll (RegisterTwoPhaseRecord st c.rmid c.info c.bytes) rest
          from rfl, hh, hh1]

theorem decodeRecordOnDisk_encode (r : TwoPhaseRecordOnDisk)
    (rest : List Nat) (hlen : r.len < 4294967296) (hrmid : r.rmid < 256)
    (hinfo : r.info < 65536) :
    decodeRecordOnDisk (encodeRecordOnDisk r ++ rest) = r := by
  obtain ⟨len, rmid, info⟩ := r
  simp only [encodeRecordOnDisk, encodeU32, encodeU16, List.cons_append,
    List.nil_append, decodeRecordOnDisk]
  simp only [TwoPhaseRecordOnDisk.mk.injEq] at *
  refine ⟨?_, ?_, ?_⟩ <;> omega

theorem processRecordsGo_nil (endId : Nat) : ∀ fuel,
    processRecordsGo endId fuel [] = [] := by
  intro fuel
  cases fuel with
  | zero => rfl
  | succ k => simp [processRecordsGo]

theorem processRecordsGo_stable (endId : Nat) : ∀ f1 f2 (buf : List Nat),
    buf.length ≤ f1 → buf.length ≤ f2 →
    processRecordsGo endId f1 buf = processRecordsGo endId f2 buf := by
  intro f1
  induction f1 with
  | zero =>
    intro f2 buf h1 h2
    have hb : buf = [] := List.length_eq_zero.mp (by omega)
    subst hb
    rw [processRecordsGo_nil, processRecordsGo_nil]
  | succ k ih =>
    intro f2 buf h1 h2
    by_cases h8 : 8 ≤ buf.length
    · cases f2 with
      | zero => omega
      | succ k2 =>
        simp only [processRecordsGo, if_pos h8]
        by_cases hend : (decodeRecordOnDisk buf).rmid = endId
        · rw [if_pos hend, if_pos hend]
        · rw [if_neg hend, if_neg hend]
          have hlen : ((buf.drop 8).drop
              (MAXALIGN (decodeRecordOnDisk buf).len)).length ≤ k := by
            simp only [List.length_drop]
            omega
          have hlen2 : ((buf.drop 8).drop
              (MAXALIGN (decodeRecordOnDisk buf).len)).length ≤ k2 := by
            simp only [List.length_drop]
            omega
          rw [ih k2 _ hlen hlen2]
    · cases f2 with
      | zero =>
        have hb : buf = [] := List.length_eq_zero.mp (by omega)
        subst hb
        rw [processRecordsGo_nil, processRecordsGo_nil]
      | succ k2 => simp only [processRecordsGo, if_neg h8]

theorem processRecords_cons (endId : Nat) (c : RmgrCall) (rest : List Nat)
    (hend : endId < 256) (hrmid : c.rmid < endId) (hinfo : c.info < 65536)
    (hlen : c.bytes.length < 4294967296) :
    ProcessRecords endId (recordBytes c ++ rest)
      = c :: ProcessRecords endId rest := by
  have hbuf : recordBytes c ++ rest
      = encodeRecordOnDisk ⟨c.bytes.length, c.rmid, c.info⟩ ++
          (c.bytes ++
            (List.replicate (MAXALIGN c.bytes.length - c.bytes.length) 0 ++
              rest)) := by
    simp [recordBytes, List.append_assoc]
  have hdec : decodeRecordOnDisk (recordBytes c ++ rest)
      = ⟨c.bytes.length, c.rmid, c.info⟩ := by
    rw [hbuf]
    exact decodeRecordOnDisk_encode _ _ hlen (show c.rmid < 256 by omega)
      hinfo
  have hblen : (recordBytes c ++ rest).length
      = 8 + MAXALIGN c.bytes.length + rest.length := by
    simp only [List.length_append, length_recordBytes]
  have h8 : 8 ≤ (recordBytes c ++ rest).length := by omega
  have hdrop8 : (recordBytes c ++ rest).drop 8
      = c.bytes ++
          (List.replicate (MAXALIGN c.bytes.length - c.bytes.length) 0 ++
            rest) := by
    rw [hbuf]
    exact List.drop_left' (length_encodeRecordOnDisk _)
  have htake : ((recordBytes c ++ rest).drop 8).take c.bytes.length
      = c.bytes := by
    rw [hdrop8]
    exact List.take_left c.bytes _
  have hdroppad : ((recordBytes c ++ rest).drop 8).drop
      (MAXALIGN c.bytes.length) = rest := by
    rw [hdrop8, ← List.append_assoc]
    refine List.drop_left' ?_
    simp only [List.length_append, List.length_replicate]
    have := MAXALIGN_ge c.bytes.length
    omega
  obtain ⟨k, hk⟩ : ∃ k, (recordBytes c ++ rest).length = k + 1 :=
    ⟨(recordBytes c ++ rest).length - 1, by omega⟩
  unfold ProcessRecords
  rw [hk]
  simp only [processRecordsGo, if_pos h8, hdec]
  rw [if_neg (by omega : ¬ c.rmid = endId)]
  rw [htake, hdroppad]
  have hrest : rest.length ≤ k := by omega
  rw [processRecordsGo_stable endId k rest.length rest hrest (Nat.le_refl _)]

theorem processRecords_sentinel (endId : Nat) (rest : List Nat)
    (hend : endId < 256) :
    ProcessRecords endId (recordBytes ⟨endId, 0, []⟩ ++ rest) = [] := by
  have hdec : decodeRecordOnDisk (recordBytes ⟨endId, 0, []⟩ ++ rest)
      = ⟨0, endId, 0⟩ := by
    have hbuf : recordBytes ⟨endId, 0, []⟩ ++ rest
        = encodeRecordOnDisk ⟨0, endId, 0⟩ ++ rest := by
      simp [recordBytes, MAXALIGN_zero]
    rw [hbuf]
    exact decodeRecordOnDisk_encode _ _ (show (0 : Nat) < 4294967296 by omega)
      (show endId < 256 by omega) (show (0 : Nat) < 65536 by omega)
  have h8 : 8 ≤ (recordBytes ⟨endId, 0, []⟩ ++ rest).length := by
    simp only [List.length_append, length_recordBytes, MAXALIGN_zero]
    omega
  obtain ⟨k, hk⟩ : ∃ k, (recordBytes ⟨endId, 0, []⟩ ++ rest).length = k + 1 :=
    ⟨(recordBytes ⟨endId, 0, []⟩ ++ rest).length - 1, by omega⟩
  unfold ProcessRecords
  rw [hk]
  simp [processRecordsGo, if_pos h8, hdec]

theorem processRecords_stream (endId : Nat) (hend : endId < 256) :
    ∀ calls : List RmgrCall,
    (∀ c ∈ calls, c.rmid < endId ∧ c.info < 65536 ∧
      c.bytes.length < 4294967296) →
    ProcessRecords endId
        ((calls.map recordBytes).flatten ++ recordBytes ⟨endId, 0, []⟩)
      = calls := by
  intro calls
  induction calls with
  | nil =>
    intro _
    simpa using processRecords_sentinel endId [] hend
  | cons c rest ih =>
    intro hc
    obtain ⟨h1, h2, h3⟩ := hc c (List.mem_cons_self c rest)
    rw [List.map_cons, List.flatten_cons, List.append_assoc,
      processRecords_cons endId c _ hend h1 h2 h3,
      ih (fun x hx => hc x (List.mem_cons_of_mem c hx))]

theorem length_encodeGid (gid : String) : (encodeGid gid).length = GIDSIZE := by
  simp only [encodeGid, GIDSIZE, List.length_append, List.length_map,
    List.length_take, List.length_replicate]
  omega

theorem length_encodeFileHeader (h : TwoPhaseFileHeader) :
    (encodeFileHeader h).length = SIZEOF_TWOPHASE_FILE_HEADER := by
  simp [encodeFileHeader, encodeU32, encodeU16, encodeU64, length_encodeGid,
    GIDSIZE, SIZEOF_TWOPHASE_FILE_HEADER]

theorem length_flatten_encodeU32 (xs : List Nat) :
    ((xs.map encodeU32).flatten).length = 4 * xs.length := by
  induction xs with
  | nil => rfl
  | cons x rest ih =>
    simp only [List.map_cons, List.flatten_cons, List.length_append, ih,
      List.length_cons]
    simp [encodeU32]
    omega

theorem length_flatten_encodeRelFileNode (xs : List RelFileNode) :
    ((xs.map encodeRelFileNode).flatten).length = 12 * xs.length := by
  induction xs with
  | nil => rfl
  | cons x rest ih =>
    simp only [List.map_cons, List.flatten_cons, List.length_append, ih,
      List.length_cons]
    simp [encodeRelFileNode, encodeU32]
    omega

theorem save_state_data_length (st : XLList) (b : List Nat) :
    (save_state_data st b).data.length = st.data.length + MAXALIGN b.length := by
  have h := MAXALIGN_ge b.length
  simp only [save_state_data, List.length_append, List.length_replicate]
  omega

theorem startPrepare_spec (inp : StartPrepareInput) :
    (StartPrepare inp).total_len
        = (SIZEOF_TWOPHASE_FILE_HEADER + MAXALIGN (4 * inp.children.length)
          + MAXALIGN (12 * inp.commitrels.length)
          + MAXALIGN (12 * inp.abortrels.length)) % 4294967296 ∧
    (StartPrepare inp).data.length
        = SIZEOF_TWOPHASE_FILE_HEADER + MAXALIGN (4 * inp.children.length)
          + MAXALIGN (12 * inp.commitrels.length)
          + MAXALIGN (12 * inp.abortrels.length) ∧
    (StartPrepare inp).hdrTotalLen = 0 := by
  have hhdr : MAXALIGN SIZEOF_TWOPHASE_FILE_HEADER
      = SIZEOF_TWOPHASE_FILE_HEADER := rfl
  unfold StartPrepare
  by_cases h1 : 0 < inp.children.length <;>
    by_cases h2 : 0 < inp.commitrels.length <;>
      by_cases h3 : 0 < inp.abortrels.length <;>
        simp only [h1, h2, h3, if_true, if_false, ite_true, ite_false,
          save_state_data, save_state_data_length, List.length_append,
          List.length_replicate, length_encodeFileHeader,
          length_flatten_encodeU32, length_flatten_encodeRelFileNode,
          List.length_nil] <;>
          refine ⟨?_, ?_, by trivial⟩ <;>
            (try rw [show inp.children.length = 0 by omega]) <;>
              (try rw [show inp.commitrels.length = 0 by omega]) <;>
                (try rw [show inp.abortrels.length = 0 by omega]) <;>
                  simp [MAXALIGN_zero, hhdr] <;>
                    (have ha := MAXALIGN_ge (4 * inp.children.length);
                     have hb := MAXALIGN_ge (12 * inp.commitrels.length);
                     have hc := MAXALIGN_ge (12 * inp.abortrels.length);
                     omega)

theorem backpatchTotalLen_drop (data : List Nat) (tl n : Nat)
    (h8 : 8 ≤ data.length) (hn : 8 ≤ n) :
    (backpatchTotalLen data tl).drop n = data.drop n := by
  obtain ⟨m, hm⟩ : ∃ m, n = 8 + m := ⟨n - 8, by omega⟩
  subst hm
  have hassoc : backpatchTotalLen data tl
      = (data.take 4 ++ encodeU32 tl) ++ data.drop 8 := by
    simp [backpatchTotalLen, List.append_assoc]
  have hlen : (data.take 4 ++ encodeU32 tl).length = 8 := by
    simp only [List.length_append, List.length_take, encodeU32,
      List.length_cons, List.length_nil]
    omega
  rw [hassoc, ← List.drop_drop, List.drop_left' hlen, List.drop_drop,
    Nat.add_comm]

theorem endPrepare_totalWrapped (endId : Nat) (inp : StartPrepareInput)
    (calls : List RmgrCall) :
    ((RegisterTwoPhaseRecord (registerAll (StartPrepare inp) calls)
        endId 0 []).total_len + SIZEOF_PG_CRC32) % 4294967296
      = specTotalLen inp calls % 4294967296 := by
  obtain ⟨_, hts, _⟩ := registerTwoPhaseRecord_spec
    (registerAll (StartPrepare inp) calls) endId 0 []
  obtain ⟨_, hta, _⟩ := registerAll_spec calls (StartPrepare inp)
  obtain ⟨hsp, _, _⟩ := startPrepare_spec inp
  have hlt : (StartPrepare inp).total_len < 4294967296 := by
    rw [hsp]
    exact Nat.mod_lt _ (by omega)
  rw [hts, hta hlt, hsp]
  simp only [specTotalLen, MAXALIGN_eight, MAXALIGN_zero, List.length_nil,
    SIZEOF_PG_CRC32]
  omega

/-- Claim C6, amended: `EndPrepare` back-patches the header's
`total_len` to the sum of the MAXALIGN-padded lengths of every appended
segment (header, subxact and relation arrays, record entries with their
on-disk headers, the sentinel) plus the size of the CRC, reduced modulo
2^32 — the running `records.total_len` and the header field are both
`uint32` — and fails with `LimitExceeded` exactly when that wrapped
total exceeds the configured maximum allocation: a wrapped total equal
to `MaxAllocSize` succeeds, one byte larger fails.  For payloads whose
true total stays below 2^32 the wrapped and true totals coincide. -/
theorem c6_endPrepare_wrapped_limit (endId : Nat) (inp : StartPrepareInput)
    (calls : List RmgrCall) :
    (∀ stF, EndPrepare endId (registerAll (StartPrepare inp) calls)
        = .ok stF →
      stF.hdrTotalLen = specTotalLen inp calls % 4294967296) ∧
    (specTotalLen inp calls % 4294967296 ≤ MaxAllocSize →
      ∃ stF, EndPrepare endId (registerAll (StartPrepare inp) calls)
        = .ok stF) ∧
    (EndPrepare endId (registerAll (StartPrepare inp) calls)
        = .error .LimitExceeded ↔
      MaxAllocSize < specTotalLen inp calls % 4294967296) := by
  have htot := endPrepare_totalWrapped endId inp calls
  by_cases hlim : MaxAllocSize
      < ((RegisterTwoPhaseRecord (registerAll (StartPrepare inp) calls)
          endId 0 []).total_len + SIZEOF_PG_CRC32) % 4294967296
  · refine ⟨?_, ?_, ?_⟩
    · intro stF hok
      simp only [EndPrepare, if_pos hlim] at hok
      cases hok
    · intro hle
      omega
    · simp only [EndPrepare, if_pos hlim]
      constructor
      · intro _
        omega
      · intro _
        trivial
  · refine ⟨?_, ?_, ?_⟩
    · intro stF hok
      simp only [EndPrepare, if_neg hlim] at hok
      injection hok with hok
      rw [← hok, htot]
    · intro _
      simp only [EndPrepare, if_neg hlim]
      exact ⟨_, rfl⟩
    · simp only [EndPrepare, if_neg hlim]
      constructor
      · intro h
        cases h
      · intro h
        omega

set_option maxRecDepth 8192 in
/-- Witness for C6 on the happy-commit fixture: with a 240-byte header,
two subxids (aligned to 8), one commit relation (12 bytes aligned to
16), no abort relations, one 2-byte rmgr record (8-byte record header
plus data aligned to 8), the 8-byte sentinel and the 4-byte CRC, the
back-patched total is 240 + 8 + 16 + 0 + 16 + 8 + 4 = 292 (with no
wraparound: 292 % 2^32 = 292), well under the maximum, so the prepare
succeeds. -/
theorem c6_endPrepare_wrapped_limit_witness :
    specTotalLen inp0 calls0 % 4294967296 = 292 ∧
    ((EndPrepare 6 (registerAll (StartPrepare inp0) calls0)).toOption.getD
        default).hdrTotalLen = 292 := by
  have h := (c6_endPrepare_wrapped_limit 6 inp0 calls0).1
    ((EndPrepare 6 (registerAll (StartPrepare inp0) calls0)).toOption.getD
      default) rfl
  rw [h]
  exact ⟨by decide, by decide⟩

/-- Counterexample to C6 as originally stated.  The original claim
asserts the back-patched `total_len` is the (unbounded) sum of the
MAXALIGN-padded segment lengths plus the CRC size and that `EndPrepare`
fails with `LimitExceeded` exactly when that sum exceeds
`MaxAllocSize`.  At the concrete input `inpC`/`callsC` — four rmgr
records of 2^30 stream bytes each — the true sum is 4294967548, far
above `MaxAllocSize`, yet the `uint32` accumulator wraps to 252, the
check passes, `EndPrepare` succeeds, and the value it back-patches is
252, not the sum. -/
theorem specTotalLen_four (inp : StartPrepareInput) (c : RmgrCall) (n : Nat)
    (hch : inp.children.length = 0) (hcr : inp.commitrels.length = 0)
    (har : inp.abortrels.length = 0) (hn : c.bytes.length = n) :
    specTotalLen inp [c, c, c, c] = 240 + 4 * (8 + MAXALIGN n) + 8 + 4 := by
  simp only [specTotalLen, List.map_cons, List.map_nil, List.sum_cons,
    List.sum_nil, hn, hch, hcr, har, MAXALIGN_eight, MAXALIGN_zero,
    Nat.mul_zero, SIZEOF_TWOPHASE_FILE_HEADER, SIZEOF_PG_CRC32]
  omega

/-- Counterexample to C6 as originally stated.  The original claim
asserts the back-patched `total_len` is the (unbounded) sum of the
MAXALIGN-padded segment lengths plus the CRC size and that `EndPrepare`
fails with `LimitExceeded` exactly when that sum exceeds
`MaxAllocSize`.  At the concrete input `inpC`/`callsC` — four rmgr
records of 2^30 stream bytes each — the true sum is 4294967548, far
above `MaxAllocSize`, yet the `uint32` accumulator wraps to 252, the
check passes, `EndPrepare` succeeds, and the value it back-patches is
252, not the sum. -/
theorem c6_unbounded_total_counterexample :
    MaxAllocSize < specTotalLen inpC callsC ∧
    EndPrepare 6 (registerAll (StartPrepare inpC) callsC)
      ≠ .error .LimitExceeded ∧
    ((EndPrepare 6 (registerAll (StartPrepare inpC) callsC)).toOption.getD
        default).hdrTotalLen = 252 ∧
    (252 : Nat) ≠ specTotalLen inpC callsC := by
  have hma : MAXALIGN 1073741816 = 1073741816 := rfl
  have hlenC : bigRecC.bytes.length = 1073741816 :=
    List.length_replicate 1073741816 0
  have hspec : specTotalLen inpC callsC = 4294967548 := by
    have h := specTotalLen_four inpC bigRecC 1073741816 rfl rfl rfl hlenC
    rw [show callsC = [bigRecC, bigRecC, bigRecC, bigRecC] from rfl, h, hma]
  have htot252 : ((RegisterTwoPhaseRecord (registerAll (StartPrepare inpC)
      callsC) 6 0 []).total_len + SIZEOF_PG_CRC32) % 4294967296 = 252 := by
    rw [endPrepare_totalWrapped 6 inpC callsC, hspec]
  have hlim : ¬ MaxAllocSize
      < ((RegisterTwoPhaseRecord (registerAll (StartPrepare inpC) callsC)
          6 0 []).total_len + SIZEOF_PG_CRC32) % 4294967296 := by
    rw [htot252]
    decide
  refine ⟨by rw [hspec]; decide, ?_, ?_, by rw [hspec]; decide⟩
  · simp only [EndPrepare, if_neg hlim]
    intro h
    cases h
  · simp only [EndPrepare, if_neg hlim]
    rw [htot252]
    simp only [Except.toOption, Option.getD_some]

/-- Claim C1: payload round-trip.  For every sequence of
`RegisterTwoPhaseRecord(rmid, info, bytes)` calls made between
`StartPrepare` and `EndPrepare` (each rmid below the sentinel id, which
fits a byte; info a `uint16`; lengths a `uint32`), walking the
assembled payload's record stream from the end of the relation lists
(`ProcessRecords` starting at the byte offset where the header, subxact
and relation segments end) up to the sentinel dispatches exactly those
records, in the same order, each callback receiving the same info and
byte-for-byte the same bytes, the MAXALIGN padding added on append
being stripped by the walk. -/
theorem c1_payload_roundtrip (endId : Nat) (inp : StartPrepareInput)
    (calls : List RmgrCall) (stF : XLList) (hend : endId < 256)
    (hc : ∀ c ∈ calls, c.rmid < endId ∧ c.info < 65536 ∧
      c.bytes.length < 4294967296)
    (hok : EndPrepare endId (registerAll (StartPrepare inp) calls)
      = .ok stF) :
    ProcessRecords endId (stF.data.drop (StartPrepare inp).data.length)
      = calls := by
  have hdata : (RegisterTwoPhaseRecord (registerAll (StartPrepare inp) calls)
        endId 0 []).data
      = (StartPrepare inp).data ++
          ((calls.map recordBytes).flatten ++ recordBytes ⟨endId, 0, []⟩) := by
    rw [(registerTwoPhaseRecord_spec (registerAll (StartPrepare inp) calls)
        endId 0 []).1,
      (registerAll_spec calls (StartPrepare inp)).1]
    simp [List.append_assoc]
  have hsp := startPrepare_spec inp
  have hsp8 : 8 ≤ (StartPrepare inp).data.length := by
    have h1 := hsp.2.1
    have h2 := hsp.1
    have h240 : SIZEOF_TWOPHASE_FILE_HEADER = 240 := rfl
    omega
  have h8d : 8 ≤ (RegisterTwoPhaseRecord (registerAll (StartPrepare inp)
      calls) endId 0 []).data.length := by
    rw [hdata]
    simp only [List.length_append]
    omega
  simp only [EndPrepare] at hok
  by_cases hlim : MaxAllocSize
      < ((RegisterTwoPhaseRecord (registerAll (StartPrepare inp) calls)
          endId 0 []).total_len + SIZEOF_PG_CRC32) % 4294967296
  · rw [if_pos hlim] at hok
    cases hok
  · rw [if_neg hlim] at hok
    injection hok with hok
    rw [← hok]
    simp only
    rw [backpatchTotalLen_drop _ _ _ h8d hsp8, hdata,
      List.drop_left (StartPrepare inp).data _]
    exact processRecords_stream endId hend calls hc

set_option maxRecDepth 8192 in
/-- Witness for C1 on the happy-commit fixture: gid "gxa", subxids 43
and 44, one commit relation, one rmgr record (rmid 5, bytes 0xAA 0xBB);
parsing the assembled payload past the header and relation lists
returns exactly that record. -/
theorem c1_payload_roundtrip_witness :
    ProcessRecords 6
        ((((EndPrepare 6 (registerAll (StartPrepare inp0)
            calls0)).toOption.getD default).data).drop
          (StartPrepare inp0).data.length)
      = calls0 := by
  apply c1_payload_roundtrip 6 inp0 calls0 _ (by decide) (by decide)
  rfl

end TwoPhase
